import Mathlib

/-!
Shallow embedding of the address-translation sysfs driver
(`solutions_to_assgn/ch12/sysfs_addrxlate/sysfs_addrxlate.c`).

The embedding models the 64-bit build (`BITS_PER_LONG == 64`, so `addr_t = u64`,
the format specifier is `%016llx` and the parser is `kstrtoull`) and the generic
(non-`CONFIG_X86`) address-validation path.

Conventions of the model:
* A store callback's input is the list of `count` bytes written by user space
  (`buf`); kernfs null-terminates the buffer at index `count`, so the C string
  seen by `strncpy` is the longest NUL-free prefix of those bytes.
* `PAGE_OFFSET` and `high_memory` are configuration parameters (`po`, `hm`).
* A call whose execution performs an out-of-bounds buffer access (the trim
  `s_addr[strlen(s_addr) - 1] = 0` when `strlen` is `0`, or `strlen` on a
  buffer that `strncpy` left unterminated), or that blocks forever on a mutex
  that a previous call leaked, has no defined outcome: the model returns `none`.
* Machine integers are `Nat` with explicit `% 2 ^ 64` where wrap-around matters.
-/

deriving instance DecidableEq for Except

/-- `-ERESTARTSYS` is returned (negated) when `mutex_lock_interruptible` is
interrupted by a signal. -/
def ERESTARTSYS : Int := 512

/-- `EINVAL`: invalid argument. -/
def EINVAL : Int := 22

/-- `ERANGE`: numerical result out of range (`kstrtoull` overflow). -/
def ERANGE : Int := 34

/-- `EFAULT`: bad address. -/
def EFAULT : Int := 14

/-- `#define ADDR_MAXLEN 20` from the driver. -/
def ADDR_MAXLEN : Nat := 20

/-- Digit value of a character, exactly as `_parse_integer` recognises digits:
`0`-`9`, then `a`-`f` after `_tolower`; any other character stops the parse. -/
def digitVal (c : Char) : Option Nat :=
  if '0' ≤ c ∧ c ≤ '9' then some (c.toNat - '0'.toNat)
  else if 'a' ≤ c.toLower ∧ c.toLower ≤ 'f' then some (c.toLower.toNat - 'a'.toNat + 10)
  else none

/-- `isxdigit` as used by `_parse_integer_fixup_radix`. -/
def isxdigit (c : Char) : Bool := (digitVal c).isSome

/-- `_parse_integer_fixup_radix` for base 0: a leading `0x`/`0X` followed by a
hex digit selects base 16 (and is skipped), a leading `0` otherwise selects
base 8, anything else selects base 10. Returns the base and the remaining
text. -/
def fixupRadix (s : List Char) : Nat × List Char :=
  match s with
  | c1 :: c2 :: c3 :: rest =>
    if c1 = '0' then
      if (c2 = 'x' ∨ c2 = 'X') ∧ isxdigit c3 then (16, c3 :: rest)
      else (8, c1 :: c2 :: c3 :: rest)
    else (10, c1 :: c2 :: c3 :: rest)
  | c1 :: rest =>
    if c1 = '0' then (8, c1 :: rest) else (10, c1 :: rest)
  | [] => (10, [])

/-- The digit-accumulation loop of `_parse_integer`: consume digits of `base`,
returning the accumulated value (as an unbounded `Nat`; the C code tracks
overflow past `ULLONG_MAX` with a sticky flag, which is equivalent to the true
value reaching `2 ^ 64`), the number of characters consumed, and the rest. -/
def parseDigitsAux (base : Nat) : List Char → Nat → Nat → Nat × Nat × List Char
  | [], acc, n => (acc, n, [])
  | c :: cs, acc, n =>
    match digitVal c with
    | some d => if d < base then parseDigitsAux base cs (acc * base + d) (n + 1) else (acc, n, c :: cs)
    | none => (acc, n, c :: cs)

/-- `kstrtoull` skips one leading `+`. -/
def skipPlus (s : List Char) : List Char :=
  match s with
  | c :: t => if c = '+' then t else c :: t
  | [] => []

/-- After the digits, `_kstrtoull` skips a single `\n` and then requires the
end of the string. -/
def checkTail (v : Nat) (rest : List Char) : Except Int Nat :=
  match rest with
  | [] => Except.ok v
  | c :: t => if c = '\n' ∧ t = [] then Except.ok v else Except.error (-EINVAL)

/-- `kstrtoull(s, 0, &res)`: base-0 unsigned parse. Overflow past `ULLONG_MAX`
gives `-ERANGE` (checked first, as in `_kstrtoull`), no digits gives
`-EINVAL`, trailing junk (other than one final newline) gives `-EINVAL`. -/
def kstrtoull (s : List Char) : Except Int Nat :=
  let s1 := skipPlus s
  let br := fixupRadix s1
  let r := parseDigitsAux br.1 br.2 0 0
  if 2 ^ 64 ≤ r.1 then Except.error (-ERANGE)
  else if r.2.1 = 0 then Except.error (-EINVAL)
  else checkTail r.1 r.2.2

/-- Predicate for `strncpy`/`strlen`: a byte that is not the NUL terminator. -/
def notNul (c : Char) : Bool := c != '\x00'

/-- Length of the C string user space wrote (the NUL-free prefix of the raw
bytes); this is what `strlen(s_addr)` returns whenever the `strncpy` copy was
properly terminated. -/
def cstrLen (buf : List Char) : Nat := (buf.takeWhile notNul).length

/-- Contents of the local `s_addr[ADDR_MAXLEN]` buffer after
`memset(s_addr, 0, ADDR_MAXLEN); strncpy(s_addr, buf, ADDR_MAXLEN)`. -/
def sAddr (buf : List Char) : List Char := (buf.takeWhile notNul).take ADDR_MAXLEN

/-- Modelled from the spec: `phys_to_virt` is a kernel primitive outside this
repository, treated by the spec as a black box with the direct-map law
"physical address plus the low-memory base", truncated to the 64-bit address
type. -/
def phys_to_virt (po pa : Nat) : Nat := (pa + po) % 2 ^ 64

/-- Modelled from the spec: `virt_to_phys` is a kernel primitive outside this
repository, treated by the spec as a black box with the direct-map law
"virtual address minus the low-memory base" (the driver itself prints
`kva - PAGE_OFFSET` as the manual translation), truncated to 64 bits. -/
def virt_to_phys (po kva : Nat) : Nat := (kva - po) % 2 ^ 64

/-- Per-channel state: the cached translated value (a `u64` global, zero at
module load) and whether the channel's mutex is currently held. -/
structure Channel where
  cached : Nat
  lockHeld : Bool
deriving DecidableEq

/-- The zero-initialised channel state at module load. -/
def initChannel : Channel := ⟨0, false⟩

/-- Outcome of a store callback: the `ssize_t` return value and the channel
state after the call. -/
structure StoreResult where
  ret : Int
  st : Channel
deriving DecidableEq

/-- Outcome of a show callback: the `ssize_t` return value, the bytes written
into the sysfs buffer, and the channel state after the call. -/
structure ShowResult where
  ret : Int
  out : List Char
  st : Channel
deriving DecidableEq

/-- `addrxlate_pa2kva_store`: the write callback of the `pa_to_kva` channel.
`intr` is true when a signal interrupts the `mutex_lock_interruptible` wait.
Control flow mirrors the C function: interruptible lock; `strncpy` into
`s_addr`; unconditional removal of the last character of `s_addr`; the
`count == 0 || count > ADDR_MAXLEN` check; `kstrtoull`; the
`pa > PAGE_OFFSET` validity check, whose failure path returns `-EFAULT`
without releasing the mutex; finally the translation and `ret = count`. -/
def addrxlate_pa2kva_store (po : Nat) (st : Channel) (intr : Bool) (buf : List Char) :
    Option StoreResult :=
  if intr then some ⟨-ERESTARTSYS, st⟩
  else if st.lockHeld then none
  else if cstrLen buf < ADDR_MAXLEN then
    if sAddr buf = [] then none
    else if buf.length = 0 ∨ ADDR_MAXLEN < buf.length then some ⟨-EINVAL, ⟨st.cached, false⟩⟩
    else
      match kstrtoull (sAddr buf).dropLast with
      | Except.error e => some ⟨e, ⟨st.cached, false⟩⟩
      | Except.ok pa =>
        if po < pa then some ⟨-EFAULT, ⟨st.cached, true⟩⟩
        else some ⟨(buf.length : Int), ⟨phys_to_virt po pa, false⟩⟩
  else none

/-- `addrxlate_kva2pa_store`: the write callback of the `kva_to_pa` channel,
on the generic (non-`CONFIG_X86`) validation path
`(kva < PAGE_OFFSET) || (kva > high_memory)`. The failure path of that check
returns `-EFAULT` without releasing the mutex, exactly as in the C source. -/
def addrxlate_kva2pa_store (po hm : Nat) (st : Channel) (intr : Bool) (buf : List Char) :
    Option StoreResult :=
  if intr then some ⟨-ERESTARTSYS, st⟩
  else if st.lockHeld then none
  else if cstrLen buf < ADDR_MAXLEN then
    if sAddr buf = [] then none
    else if buf.length = 0 ∨ ADDR_MAXLEN < buf.length then some ⟨-EINVAL, ⟨st.cached, false⟩⟩
    else
      match kstrtoull (sAddr buf).dropLast with
      | Except.error e => some ⟨e, ⟨st.cached, false⟩⟩
      | Except.ok kva =>
        if kva < po ∨ hm < kva then some ⟨-EFAULT, ⟨st.cached, true⟩⟩
        else some ⟨(buf.length : Int), ⟨virt_to_phys po kva, false⟩⟩
  else none

/-- One hexadecimal digit character, as printf's lowercase digit table. -/
def hexDigitChar (d : Nat) : Char :=
  match d with
  | 0 => '0' | 1 => '1' | 2 => '2' | 3 => '3' | 4 => '4'
  | 5 => '5' | 6 => '6' | 7 => '7' | 8 => '8' | 9 => '9'
  | 10 => 'a' | 11 => 'b' | 12 => 'c' | 13 => 'd' | 14 => 'e'
  | _ => 'f'

/-- `w`-digit zero-padded lowercase hexadecimal rendering (most significant
digit first), as `%0(w)llx`; only the low `w` hex digits of `v` are shown. -/
def hexPad (w v : Nat) : List Char :=
  match w with
  | 0 => []
  | w + 1 => hexDigitChar (v / 16 ^ w % 16) :: hexPad w v

/-- The string `snprintf(buf, ADDR_MAXLEN, "0x%016llx\n", v)` produces:
19 characters, within the 20-byte bound, so never truncated. -/
def showString (v : Nat) : List Char := '0' :: 'x' :: (hexPad 16 v ++ [ '\n' ])

/-- `addrxlate_pa2kva_show`: the read callback of the `pa_to_kva` channel. -/
def addrxlate_pa2kva_show (st : Channel) (intr : Bool) : Option ShowResult :=
  if intr then some ⟨-ERESTARTSYS, [], st⟩
  else if st.lockHeld then none
  else some ⟨((showString st.cached).length : Int), showString st.cached, ⟨st.cached, false⟩⟩

/-- `addrxlate_kva2pa_show`: the read callback of the `kva_to_pa` channel. -/
def addrxlate_kva2pa_show (st : Channel) (intr : Bool) : Option ShowResult :=
  if intr then some ⟨-ERESTARTSYS, [], st⟩
  else if st.lockHeld then none
  else some ⟨((showString st.cached).length : Int), showString st.cached, ⟨st.cached, false⟩⟩

theorem hexPad_length (w v : Nat) : (hexPad w v).length = w := by
  induction w with
  | zero => rfl
  | succ w ih => simp [hexPad, ih]

theorem digitVal_hexDigitChar (d : Nat) (hd : d < 16) : digitVal (hexDigitChar d) = some d := by
  interval_cases d <;> decide

theorem hexDigitChar_notNul (d : Nat) : notNul (hexDigitChar d) = true := by
  unfold hexDigitChar
  split <;> decide

theorem takeWhile_all {p : Char → Bool} :
    ∀ {l : List Char}, (∀ c ∈ l, p c = true) → l.takeWhile p = l := by
  intro l
  induction l with
  | nil => intro _; rfl
  | cons a t ih =>
    intro h
    have ha : p a = true := h a (List.mem_cons_self a t)
    have ht := ih (fun c hc => h c (List.mem_cons_of_mem a hc))
    simp [List.takeWhile_cons, ha, ht]

theorem hexPad_notNul (w v : Nat) : ∀ c ∈ hexPad w v, notNul c = true := by
  induction w with
  | zero => simp [hexPad]
  | succ w ih =>
    intro c hc
    simp only [hexPad, List.mem_cons] at hc
    rcases hc with h | h
    · subst h; exact hexDigitChar_notNul _
    · exact ih c h

theorem showString_notNul (v : Nat) : ∀ c ∈ showString v, notNul c = true := by
  intro c hc
  simp only [showString, List.mem_cons, List.mem_append, List.mem_singleton] at hc
  rcases hc with h | h | h | h | h
  · subst h; decide
  · subst h; decide
  · exact hexPad_notNul 16 v c h
  · subst h; decide
  · simp at h

theorem showString_length (v : Nat) : (showString v).length = 19 := by
  simp [showString, hexPad_length]

theorem cstrLen_showString (v : Nat) : cstrLen (showString v) = 19 := by
  unfold cstrLen
  rw [takeWhile_all (showString_notNul v)]
  exact showString_length v

theorem sAddr_showString (v : Nat) : sAddr (showString v) = showString v := by
  unfold sAddr
  rw [takeWhile_all (showString_notNul v)]
  apply List.take_of_length_le
  rw [showString_length]
  norm_num [ADDR_MAXLEN]

theorem dropLast_showString (v : Nat) : (showString v).dropLast = '0' :: 'x' :: hexPad 16 v := by
  have h : showString v = ('0' :: 'x' :: hexPad 16 v) ++ [ '\n' ] := by simp [showString]
  rw [h, List.dropLast_concat]

theorem parseDigitsAux_hexPad (w : Nat) : ∀ v acc n : Nat,
    parseDigitsAux 16 (hexPad w v) acc n = (acc * 16 ^ w + v % 16 ^ w, n + w, []) := by
  induction w with
  | zero => intro v acc n; simp [hexPad, parseDigitsAux, Nat.mod_one]
  | succ w ih =>
    intro v acc n
    have hd : v / 16 ^ w % 16 < 16 := Nat.mod_lt _ (by norm_num)
    simp only [hexPad, parseDigitsAux, digitVal_hexDigitChar _ hd, if_pos hd]
    rw [ih]
    simp only [Prod.mk.injEq]
    refine ⟨?_, ?_, trivial⟩
    · rw [Nat.mod_pow_succ]; ring
    · omega

theorem kstrtoull_hexPad16 (v : Nat) (hv : v < 2 ^ 64) :
    kstrtoull ('0' :: 'x' :: hexPad 16 v) = Except.ok v := by
  have hd : v / 16 ^ 15 % 16 < 16 := Nat.mod_lt _ (by norm_num)
  have hcons : hexPad 16 v = hexDigitChar (v / 16 ^ 15 % 16) :: hexPad 15 v := rfl
  have h1 : skipPlus ('0' :: 'x' :: hexPad 16 v) = '0' :: 'x' :: hexPad 16 v := by
    simp [skipPlus]
  have h2 : fixupRadix ('0' :: 'x' :: hexPad 16 v) = (16, hexPad 16 v) := by
    rw [hcons]
    have hd' : isxdigit (hexDigitChar (v / 16 ^ 15 % 16)) = true := by
      unfold isxdigit
      rw [digitVal_hexDigitChar _ hd]
      rfl
    simp only [fixupRadix]
    rw [if_pos trivial, if_pos ⟨Or.inl trivial, hd'⟩]
  have h3 : parseDigitsAux 16 (hexPad 16 v) 0 0 = (v % 16 ^ 16, 16, []) := by
    have h := parseDigitsAux_hexPad 16 v 0 0
    simpa using h
  have hmod : v % 16 ^ 16 = v := by
    apply Nat.mod_eq_of_lt
    calc v < 2 ^ 64 := hv
      _ = 16 ^ 16 := by norm_num
  simp only [kstrtoull, h1, h2, h3, hmod]
  rw [if_neg (Nat.not_le.mpr hv)]
  simp [checkTail]

theorem kstrtoull_dropLast_showString (v : Nat) (hv : v < 2 ^ 64) :
    kstrtoull ((showString v).dropLast) = Except.ok v := by
  rw [dropLast_showString]
  exact kstrtoull_hexPad16 v hv

theorem parseDigitsAux_lt (base : Nat) (hb : 1 ≤ base) :
    ∀ (s : List Char) (acc n : Nat),
      (parseDigitsAux base s acc n).1 < (acc + 1) * base ^ s.length := by
  intro s
  induction s with
  | nil =>
    intro acc n
    simp [parseDigitsAux]
  | cons c cs ih =>
    intro acc n
    simp only [parseDigitsAux, List.length_cons]
    have hp : 0 < base ^ (cs.length + 1) := Nat.pos_pow_of_pos _ hb
    have hstop : acc < (acc + 1) * base ^ (cs.length + 1) := by
      calc acc < acc + 1 := Nat.lt_succ_self acc
        _ = (acc + 1) * 1 := by ring
        _ ≤ (acc + 1) * base ^ (cs.length + 1) := Nat.mul_le_mul_left _ hp
    split
    · rename_i d hd
      split
      · rename_i hdb
        have hstep : acc * base + d + 1 ≤ (acc + 1) * base := by
          calc acc * base + d + 1 = acc * base + (d + 1) := by ring
            _ ≤ acc * base + base := Nat.add_le_add_left hdb _
            _ = (acc + 1) * base := by ring
        calc (parseDigitsAux base cs (acc * base + d) (n + 1)).1
            < (acc * base + d + 1) * base ^ cs.length := ih _ _
          _ ≤ ((acc + 1) * base) * base ^ cs.length :=
              Nat.mul_le_mul_right _ hstep
          _ = (acc + 1) * base ^ (cs.length + 1) := by ring
      · simpa using hstop
    · simpa using hstop

theorem fixupRadix_cases (s : List Char) :
    ((fixupRadix s).1 = 16 ∧ (fixupRadix s).2.length + 2 = s.length) ∨
    (((fixupRadix s).1 = 8 ∨ (fixupRadix s).1 = 10) ∧ (fixupRadix s).2 = s) := by
  rcases s with _ | ⟨c1, _ | ⟨c2, _ | ⟨c3, rest⟩⟩⟩
  · right; simp [fixupRadix]
  · simp only [fixupRadix]
    split <;> simp
  · simp only [fixupRadix]
    split <;> simp
  · simp only [fixupRadix]
    split
    · split
      · left; simp
      · right; simp
    · right; simp

theorem skipPlus_length_le (s : List Char) : (skipPlus s).length ≤ s.length := by
  cases s with
  | nil => simp [skipPlus]
  | cons c t =>
    simp only [skipPlus]
    split <;> simp

theorem checkTail_error (v : Nat) (rest : List Char) (e : Int)
    (h : checkTail v rest = Except.error e) : e = -EINVAL := by
  cases rest with
  | nil => simp [checkTail] at h
  | cons c t =>
    simp only [checkTail] at h
    split at h
    · simp at h
    · simp only [Except.error.injEq] at h
      exact h.symm

theorem kstrtoull_error_eq_einval (s : List Char) (hlen : s.length ≤ 18) (e : Int)
    (h : kstrtoull s = Except.error e) : e = -EINVAL := by
  have hs1 : (skipPlus s).length ≤ 18 := le_trans (skipPlus_length_le s) hlen
  have hvb : (parseDigitsAux (fixupRadix (skipPlus s)).1 (fixupRadix (skipPlus s)).2 0 0).1
      < 2 ^ 64 := by
    rcases fixupRadix_cases (skipPlus s) with ⟨hb, hl⟩ | ⟨hb, hl⟩
    · rw [hb]
      have hlen2 : (fixupRadix (skipPlus s)).2.length ≤ 16 := by omega
      calc (parseDigitsAux 16 (fixupRadix (skipPlus s)).2 0 0).1
          < (0 + 1) * 16 ^ (fixupRadix (skipPlus s)).2.length :=
            parseDigitsAux_lt 16 (by norm_num) _ 0 0
        _ = 16 ^ (fixupRadix (skipPlus s)).2.length := by ring
        _ ≤ 16 ^ 16 := Nat.pow_le_pow_right (by norm_num) hlen2
        _ = 2 ^ 64 := by norm_num
    · have hlen2 : (fixupRadix (skipPlus s)).2.length ≤ 18 := by rw [hl]; exact hs1
      rcases hb with hb | hb <;> rw [hb]
      · calc (parseDigitsAux 8 (fixupRadix (skipPlus s)).2 0 0).1
            < (0 + 1) * 8 ^ (fixupRadix (skipPlus s)).2.length :=
              parseDigitsAux_lt 8 (by norm_num) _ 0 0
          _ = 8 ^ (fixupRadix (skipPlus s)).2.length := by ring
          _ ≤ 8 ^ 18 := Nat.pow_le_pow_right (by norm_num) hlen2
          _ < 2 ^ 64 := by norm_num
      · calc (parseDigitsAux 10 (fixupRadix (skipPlus s)).2 0 0).1
            < (0 + 1) * 10 ^ (fixupRadix (skipPlus s)).2.length :=
              parseDigitsAux_lt 10 (by norm_num) _ 0 0
          _ = 10 ^ (fixupRadix (skipPlus s)).2.length := by ring
          _ ≤ 10 ^ 18 := Nat.pow_le_pow_right (by norm_num) hlen2
          _ < 2 ^ 64 := by norm_num
  simp only [kstrtoull] at h
  rw [if_neg (Nat.not_le.mpr hvb)] at h
  split at h
  · simp only [Except.error.injEq] at h
    exact h.symm
  · exact checkTail_error _ _ _ h

example : kstrtoull ("0x10".toList) = Except.ok 16 := by decide
example : kstrtoull ("0x10\n".toList) = Except.ok 16 := by decide
example : kstrtoull ("123".toList) = Except.ok 123 := by decide
example : kstrtoull ("0".toList) = Except.ok 0 := by decide
example : kstrtoull ("0x".toList) = Except.error (-EINVAL) := by decide
example : kstrtoull ("017".toList) = Except.ok 15 := by decide
example : kstrtoull ("".toList) = Except.error (-EINVAL) := by decide
example : kstrtoull ("0xFFFFFFFFFFFFFFFFF".toList) = Except.error (-ERANGE) := by decide
example : addrxlate_pa2kva_store 0x1000 ⟨0, false⟩ false ("0x10".toList)
    = some ⟨4, ⟨0x1001, false⟩⟩ := by decide
example : addrxlate_pa2kva_store 0x1000 ⟨0, false⟩ false ("0x2000\n".toList)
    = some ⟨-EFAULT, ⟨0, true⟩⟩ := by decide
example : addrxlate_pa2kva_store 0x1000 ⟨0, false⟩ false [] = none := by decide
example : showString 0x1000 = "0x0000000000001000\n".toList := by decide

theorem pa2kva_store_ok (po cached pa : Nat) (buf : List Char)
    (hterm : cstrLen buf < ADDR_MAXLEN) (hne : sAddr buf ≠ [])
    (hcnt : ¬(buf.length = 0 ∨ ADDR_MAXLEN < buf.length))
    (hparse : kstrtoull (sAddr buf).dropLast = Except.ok pa) :
    addrxlate_pa2kva_store po ⟨cached, false⟩ false buf =
      if po < pa then some ⟨-EFAULT, ⟨cached, true⟩⟩
      else some ⟨(buf.length : Int), ⟨phys_to_virt po pa, false⟩⟩ := by
  simp only [addrxlate_pa2kva_store, Bool.false_eq_true, if_false]
  rw [if_pos hterm, if_neg hne, if_neg hcnt, hparse]

theorem pa2kva_store_err (po cached : Nat) (buf : List Char) (e : Int)
    (hterm : cstrLen buf < ADDR_MAXLEN) (hne : sAddr buf ≠ [])
    (hcnt : ¬(buf.length = 0 ∨ ADDR_MAXLEN < buf.length))
    (hparse : kstrtoull (sAddr buf).dropLast = Except.error e) :
    addrxlate_pa2kva_store po ⟨cached, false⟩ false buf = some ⟨e, ⟨cached, false⟩⟩ := by
  simp only [addrxlate_pa2kva_store, Bool.false_eq_true, if_false]
  rw [if_pos hterm, if_neg hne, if_neg hcnt, hparse]

theorem kva2pa_store_ok (po hm cached kva : Nat) (buf : List Char)
    (hterm : cstrLen buf < ADDR_MAXLEN) (hne : sAddr buf ≠ [])
    (hcnt : ¬(buf.length = 0 ∨ ADDR_MAXLEN < buf.length))
    (hparse : kstrtoull (sAddr buf).dropLast = Except.ok kva) :
    addrxlate_kva2pa_store po hm ⟨cached, false⟩ false buf =
      if kva < po ∨ hm < kva then some ⟨-EFAULT, ⟨cached, true⟩⟩
      else some ⟨(buf.length : Int), ⟨virt_to_phys po kva, false⟩⟩ := by
  simp only [addrxlate_kva2pa_store, Bool.false_eq_true, if_false]
  rw [if_pos hterm, if_neg hne, if_neg hcnt, hparse]

theorem kva2pa_store_err (po hm cached : Nat) (buf : List Char) (e : Int)
    (hterm : cstrLen buf < ADDR_MAXLEN) (hne : sAddr buf ≠ [])
    (hcnt : ¬(buf.length = 0 ∨ ADDR_MAXLEN < buf.length))
    (hparse : kstrtoull (sAddr buf).dropLast = Except.error e) :
    addrxlate_kva2pa_store po hm ⟨cached, false⟩ false buf = some ⟨e, ⟨cached, false⟩⟩ := by
  simp only [addrxlate_kva2pa_store, Bool.false_eq_true, if_false]
  rw [if_pos hterm, if_neg hne, if_neg hcnt, hparse]

theorem show_unlocked (u : Nat) :
    addrxlate_kva2pa_show ⟨u, false⟩ false = some ⟨19, showString u, ⟨u, false⟩⟩ ∧
    addrxlate_pa2kva_show ⟨u, false⟩ false = some ⟨19, showString u, ⟨u, false⟩⟩ := by
  constructor <;>
  · simp only [addrxlate_kva2pa_show, addrxlate_pa2kva_show, Bool.false_eq_true, if_false]
    rw [showString_length]
    norm_num

/-- C1: the claim states that every store releases the channel lock before
returning on every path. The code violates it: a store rejected on the
address-validation path (`OutOfRange`) returns `-EFAULT` while still holding
the channel mutex, on both channels. With `PAGE_OFFSET = 0x1000` (and
`high_memory = 0x3000`), a `pa_to_kva` store of `"0x2000\n"` and a
`kva_to_pa` store of `"0x10\n"` both complete with the lock still held. -/
theorem c1_out_of_range_leaves_lock_held :
    addrxlate_pa2kva_store 0x1000 ⟨0, false⟩ false ("0x2000\n".toList)
      = some ⟨-EFAULT, ⟨0, true⟩⟩ ∧
    addrxlate_kva2pa_store 0x1000 0x3000 ⟨0, false⟩ false ("0x10\n".toList)
      = some ⟨-EFAULT, ⟨0, true⟩⟩ := by decide

/-- C2: the claim states that a trailing line terminator is stripped only when
present, so the 4-byte input `"0x10"` parses as `0x10`. The code removes the
last character of the buffer unconditionally, so `"0x10"` is trimmed to
`"0x1"`, parses as `0x1`, and the cached value becomes the translation of
`0x1` (not of `0x10`). -/
theorem c2_last_char_stripped_unconditionally :
    addrxlate_pa2kva_store 0x1000 ⟨0, false⟩ false ("0x10".toList)
      = some ⟨4, ⟨phys_to_virt 0x1000 0x1, false⟩⟩ ∧
    phys_to_virt 0x1000 0x1 ≠ phys_to_virt 0x1000 0x10 := by decide

/-- C3 counterexample: a zero-length store is not the claimed clean
`InvalidArgument` rejection: the trim of the last character runs before the
`count == 0` check and, with an empty string in the buffer, writes at index
`-1` — in the model, the call has no defined outcome (`none`) rather than the
claimed `-EINVAL` result. -/
theorem c3_counterexample :
    addrxlate_pa2kva_store 0x1000 ⟨0, false⟩ false [] = none ∧
    ¬ addrxlate_pa2kva_store 0x1000 ⟨0, false⟩ false []
        = some ⟨-EINVAL, ⟨0, false⟩⟩ := by decide

/-- C3 (amended): a zero-length store is not rejected before trimming; the
buffer trim executes first and performs an out-of-bounds write at index `-1`
of the local address-text buffer (undefined behaviour, modelled as the call
having no defined outcome), on both channels and for every configuration and
cached value. -/
theorem c3_zero_length_store_is_oob (po hm cached : Nat) :
    addrxlate_pa2kva_store po ⟨cached, false⟩ false [] = none ∧
    addrxlate_kva2pa_store po hm ⟨cached, false⟩ false [] = none := ⟨rfl, rfl⟩

/-- C4 counterexample: with `PAGE_OFFSET = 0x1000`, storing `"0x1000\n"`
(the parsed physical address is exactly the low-memory base) into `pa_to_kva`
is accepted — the call returns the byte count 7 and the cached value is
replaced by the translation `0x2000` — contradicting the claimed `OutOfRange`
rejection with the cached value (7) left unchanged. -/
theorem c4_counterexample :
    addrxlate_pa2kva_store 0x1000 ⟨7, false⟩ false ("0x1000\n".toList)
      = some ⟨7, ⟨0x2000, false⟩⟩ := by decide

/-- C4 (amended): for every well-sized, parseable input to the `pa_to_kva`
store, the parsed physical address is accepted if and only if it is less than
OR EQUAL TO the low-memory base `PAGE_OFFSET` (the code checks
`pa > PAGE_OFFSET`); an address exactly equal to the base is accepted and
translated; only a strictly greater address is rejected with `-EFAULT`, the
cached value left unchanged (and the channel lock leaked). -/
theorem c4_pa2kva_accept_iff_le_page_offset (po cached pa : Nat) (buf : List Char)
    (hterm : cstrLen buf < ADDR_MAXLEN) (hne : sAddr buf ≠ [])
    (h0 : 0 < buf.length) (h20 : buf.length ≤ ADDR_MAXLEN)
    (hparse : kstrtoull (sAddr buf).dropLast = Except.ok pa) :
    (pa ≤ po →
      addrxlate_pa2kva_store po ⟨cached, false⟩ false buf
        = some ⟨(buf.length : Int), ⟨phys_to_virt po pa, false⟩⟩) ∧
    (po < pa →
      addrxlate_pa2kva_store po ⟨cached, false⟩ false buf
        = some ⟨-EFAULT, ⟨cached, true⟩⟩) := by
  have hcnt : ¬(buf.length = 0 ∨ ADDR_MAXLEN < buf.length) := by omega
  constructor <;> intro h
  · rw [pa2kva_store_ok po cached pa buf hterm hne hcnt hparse,
      if_neg (Nat.not_lt.mpr h)]
  · rw [pa2kva_store_ok po cached pa buf hterm hne hcnt hparse, if_pos h]

/-- C4 witness: the amended theorem applied at `PAGE_OFFSET = 0x1000` and the
input `"0x800\n"` (parsed address `0x800 ≤ 0x1000`, accepted). -/
theorem c4_witness :
    addrxlate_pa2kva_store 0x1000 ⟨0, false⟩ false ("0x800\n".toList)
      = some ⟨(("0x800\n".toList).length : Int), ⟨phys_to_virt 0x1000 0x800, false⟩⟩ :=
  (c4_pa2kva_accept_iff_le_page_offset 0x1000 0 0x800 ("0x800\n".toList)
    (by decide) (by decide) (by decide) (by decide) (by decide)).1 (by norm_num)

/-- C5 counterexample: on the generic validation path with
`PAGE_OFFSET = 0x1000` and `high_memory = 0x3000`, storing `"0x3000\n"`
(the parsed address exactly equal to `high_memory`) into `kva_to_pa` is
accepted — return 7, cached value replaced by `0x2000` — contradicting the
claim that an address equal to the top of the mapping is rejected with
`OutOfRange`. -/
theorem c5_counterexample :
    addrxlate_kva2pa_store 0x1000 0x3000 ⟨7, false⟩ false ("0x3000\n".toList)
      = some ⟨7, ⟨0x2000, false⟩⟩ := by decide

/-- C5 (amended): for every well-sized, parseable input to the `kva_to_pa`
store on the generic path, the parsed address is accepted if and only if
`PAGE_OFFSET ≤ kva` AND `kva ≤ high_memory` (the code checks
`kva < PAGE_OFFSET || kva > high_memory`): an address equal to the base is
accepted, one unit below the base is rejected with `-EFAULT`, strictly above
the top is rejected, but an address exactly equal to `high_memory` is
accepted. -/
theorem c5_kva2pa_accept_iff_in_closed_range (po hm cached kva : Nat) (buf : List Char)
    (hterm : cstrLen buf < ADDR_MAXLEN) (hne : sAddr buf ≠ [])
    (h0 : 0 < buf.length) (h20 : buf.length ≤ ADDR_MAXLEN)
    (hparse : kstrtoull (sAddr buf).dropLast = Except.ok kva) :
    (po ≤ kva ∧ kva ≤ hm →
      addrxlate_kva2pa_store po hm ⟨cached, false⟩ false buf
        = some ⟨(buf.length : Int), ⟨virt_to_phys po kva, false⟩⟩) ∧
    (kva < po ∨ hm < kva →
      addrxlate_kva2pa_store po hm ⟨cached, false⟩ false buf
        = some ⟨-EFAULT, ⟨cached, true⟩⟩) := by
  have hcnt : ¬(buf.length = 0 ∨ ADDR_MAXLEN < buf.length) := by omega
  constructor <;> intro h
  · rw [kva2pa_store_ok po hm cached kva buf hterm hne hcnt hparse,
      if_neg (by omega)]
  · rw [kva2pa_store_ok po hm cached kva buf hterm hne hcnt hparse, if_pos h]

/-- C5 witness: the amended theorem applied at `PAGE_OFFSET = 0x1000`,
`high_memory = 0x3000` and the input `"0x1000\n"` (the address exactly equal
to the low-memory base, accepted). -/
theorem c5_witness :
    addrxlate_kva2pa_store 0x1000 0x3000 ⟨0, false⟩ false ("0x1000\n".toList)
      = some ⟨(("0x1000\n".toList).length : Int), ⟨virt_to_phys 0x1000 0x1000, false⟩⟩ :=
  (c5_kva2pa_accept_iff_in_closed_range 0x1000 0x3000 0 0x1000 ("0x1000\n".toList)
    (by decide) (by decide) (by decide) (by decide) (by decide)).1 (by norm_num)

/-- C6: the claim states every rejected store leaves `cached_result` unchanged
AND that a show immediately afterwards returns the textual form of the cached
value. The first half holds, but the code violates the second: an `OutOfRange`
rejection returns with the channel mutex still held (the missing unlock on the
`-EFAULT` path), so the following show blocks forever on
`mutex_lock_interruptible` and never returns the text. With
`PAGE_OFFSET = 0x1000` and cached value 7, storing `"0x2000\n"` into
`pa_to_kva` is rejected with `-EFAULT`, the cached value stays 7, and the
subsequent show has no defined (completing) outcome. -/
theorem c6_rejected_store_then_show :
    addrxlate_pa2kva_store 0x1000 ⟨7, false⟩ false ("0x2000\n".toList)
      = some ⟨-EFAULT, ⟨7, true⟩⟩ ∧
    addrxlate_pa2kva_show ⟨7, true⟩ false = none := by decide

/-- C7: round trip on the direct-mapped region. For any address `v` with
`PAGE_OFFSET ≤ v ≤ high_memory`, `v < 2 ^ 64` and the translated physical
address within `pa_to_kva`'s accepted range, storing the 19-byte text of `v`
into `kva_to_pa` caches `virt_to_phys v = v - PAGE_OFFSET`, the following
show prints exactly its text, storing that text into `pa_to_kva` caches `v`
again, and its show prints the text of `v`: the two translations are exact
inverses on the direct-mapped region. -/
theorem c7_round_trip (po hm v c1 c2 : Nat)
    (hpo : po ≤ v) (hhm : v ≤ hm) (hv : v < 2 ^ 64) (hba : v - po ≤ po) :
    addrxlate_kva2pa_store po hm ⟨c1, false⟩ false (showString v)
      = some ⟨19, ⟨virt_to_phys po v, false⟩⟩ ∧
    addrxlate_kva2pa_show ⟨virt_to_phys po v, false⟩ false
      = some ⟨19, showString (virt_to_phys po v), ⟨virt_to_phys po v, false⟩⟩ ∧
    addrxlate_pa2kva_store po ⟨c2, false⟩ false (showString (virt_to_phys po v))
      = some ⟨19, ⟨v, false⟩⟩ ∧
    addrxlate_pa2kva_show ⟨v, false⟩ false
      = some ⟨19, showString v, ⟨v, false⟩⟩ := by
  have hvp : virt_to_phys po v = v - po := by
    unfold virt_to_phys
    exact Nat.mod_eq_of_lt (by omega)
  have hvp_lt : v - po < 2 ^ 64 := by omega
  have hppv : phys_to_virt po (v - po) = v := by
    unfold phys_to_virt
    have h1 : v - po + po = v := by omega
    rw [h1]
    exact Nat.mod_eq_of_lt hv
  have hterm : ∀ u : Nat, cstrLen (showString u) < ADDR_MAXLEN := by
    intro u; rw [cstrLen_showString]; decide
  have hne : ∀ u : Nat, sAddr (showString u) ≠ [] := by
    intro u; rw [sAddr_showString]; simp [showString]
  have hcnt : ∀ u : Nat,
      ¬((showString u).length = 0 ∨ ADDR_MAXLEN < (showString u).length) := by
    intro u; rw [showString_length]; decide
  have hparse : ∀ u : Nat, u < 2 ^ 64 →
      kstrtoull (sAddr (showString u)).dropLast = Except.ok u := by
    intro u hu; rw [sAddr_showString]; exact kstrtoull_dropLast_showString u hu
  refine ⟨?_, (show_unlocked _).1, ?_, (show_unlocked _).2⟩
  · rw [kva2pa_store_ok po hm c1 v (showString v) (hterm v) (hne v) (hcnt v) (hparse v hv),
      if_neg (by omega), showString_length]
    norm_num
  · rw [hvp]
    rw [pa2kva_store_ok po c2 (v - po) (showString (v - po)) (hterm _) (hne _) (hcnt _)
        (hparse _ hvp_lt),
      if_neg (by omega), hppv, showString_length]
    norm_num

/-- C7 witness: the round trip at `PAGE_OFFSET = 0x1000`,
`high_memory = 0x3000`, `v = 0x2000`. -/
theorem c7_witness :
    addrxlate_kva2pa_store 0x1000 0x3000 ⟨0, false⟩ false (showString 0x2000)
      = some ⟨19, ⟨virt_to_phys 0x1000 0x2000, false⟩⟩ ∧
    addrxlate_kva2pa_show ⟨virt_to_phys 0x1000 0x2000, false⟩ false
      = some ⟨19, showString (virt_to_phys 0x1000 0x2000),
          ⟨virt_to_phys 0x1000 0x2000, false⟩⟩ ∧
    addrxlate_pa2kva_store 0x1000 ⟨0, false⟩ false (showString (virt_to_phys 0x1000 0x2000))
      = some ⟨19, ⟨0x2000, false⟩⟩ ∧
    addrxlate_pa2kva_show ⟨0x2000, false⟩ false
      = some ⟨19, showString 0x2000, ⟨0x2000, false⟩⟩ :=
  c7_round_trip 0x1000 0x3000 0x2000 0 0 (by norm_num) (by norm_num) (by norm_num)
    (by norm_num)

/-- C8: for every well-sized input whose trimmed text fails to parse, the
store reports exactly the invalid-argument status `-EINVAL` — never any other
negative status. In particular `-ERANGE` is unreachable: a well-sized input
leaves at most 19 characters in `s_addr`, so the trimmed text has at most 18
characters, whose base-0 value is always below `2 ^ 64`. -/
theorem c8_parse_failure_reports_einval (po hm cached : Nat) (buf : List Char) (e : Int)
    (hterm : cstrLen buf < ADDR_MAXLEN) (hne : sAddr buf ≠ [])
    (h0 : 0 < buf.length) (h20 : buf.length ≤ ADDR_MAXLEN)
    (hparse : kstrtoull (sAddr buf).dropLast = Except.error e) :
    e = -EINVAL ∧
    addrxlate_pa2kva_store po ⟨cached, false⟩ false buf
      = some ⟨-EINVAL, ⟨cached, false⟩⟩ ∧
    addrxlate_kva2pa_store po hm ⟨cached, false⟩ false buf
      = some ⟨-EINVAL, ⟨cached, false⟩⟩ := by
  have hcnt : ¬(buf.length = 0 ∨ ADDR_MAXLEN < buf.length) := by omega
  have hsl : (sAddr buf).length ≤ 19 := by
    simp only [sAddr, cstrLen, ADDR_MAXLEN] at hterm ⊢
    rw [List.length_take]
    omega
  have hdl : (sAddr buf).dropLast.length ≤ 18 := by
    rw [List.length_dropLast]
    omega
  have he : e = -EINVAL := kstrtoull_error_eq_einval _ hdl e hparse
  subst he
  exact ⟨rfl, pa2kva_store_err po cached buf _ hterm hne hcnt hparse,
    kva2pa_store_err po hm cached buf _ hterm hne hcnt hparse⟩

/-- C8 witness: the unparseable input `"zz\n"` is rejected with `-EINVAL` and
the cached value 5 is untouched. -/
theorem c8_witness :
    addrxlate_pa2kva_store 0x1000 ⟨5, false⟩ false ("zz\n".toList)
      = some ⟨-EINVAL, ⟨5, false⟩⟩ :=
  (c8_parse_failure_reports_einval 0x1000 0x3000 5 ("zz\n".toList) (-EINVAL)
    (by decide) (by decide) (by decide) (by decide) (by decide)).2.1

/-- C9: for every channel state with the lock free, show returns `0x` followed
by the cached value as exactly 16 zero-padded lowercase hex digits (the
64-bit address width) and a newline, returning the byte count 19; the cached
value starts at zero (`initChannel`) and is only ever replaced by a
successful store, so the value shown is the last successfully stored
translation, or zero if none has succeeded. -/
theorem c9_show_format (cached : Nat) :
    addrxlate_kva2pa_show ⟨cached, false⟩ false
      = some ⟨19, '0' :: 'x' :: (hexPad 16 cached ++ [ '\n' ]), ⟨cached, false⟩⟩ ∧
    addrxlate_pa2kva_show ⟨cached, false⟩ false
      = some ⟨19, '0' :: 'x' :: (hexPad 16 cached ++ [ '\n' ]), ⟨cached, false⟩⟩ ∧
    (hexPad 16 cached).length = 16 ∧
    initChannel = ⟨0, false⟩ :=
  ⟨(show_unlocked cached).1, (show_unlocked cached).2, hexPad_length 16 cached, rfl⟩

/-- C10 counterexample: the claim quantifies over every one-byte input
"whatever the byte is", but a one-byte write of the NUL byte makes the copied
string empty, so the unconditional trim accesses index `-1` of the buffer
(undefined behaviour, `none` in the model) instead of reporting a parse
error. -/
theorem c10_counterexample :
    addrxlate_pa2kva_store 0x1000 ⟨0, false⟩ false [ '\x00' ] = none ∧
    ¬ addrxlate_pa2kva_store 0x1000 ⟨0, false⟩ false [ '\x00' ]
        = some ⟨-EINVAL, ⟨0, false⟩⟩ := by decide

/-- C10 (amended): for every one-byte input whose byte is not NUL, store on
either channel never succeeds: the single byte is removed before parsing,
the empty remainder fails `kstrtoull`, the call reports `-EINVAL` and stores
nothing. (A one-byte NUL input instead triggers the out-of-bounds trim.) -/
theorem c10_one_byte_store_parse_error (po hm cached : Nat) (c : Char)
    (hc : notNul c = true) :
    addrxlate_pa2kva_store po ⟨cached, false⟩ false [ c ]
      = some ⟨-EINVAL, ⟨cached, false⟩⟩ ∧
    addrxlate_kva2pa_store po hm ⟨cached, false⟩ false [ c ]
      = some ⟨-EINVAL, ⟨cached, false⟩⟩ := by
  have htw : List.takeWhile notNul [ c ] = [ c ] := by
    simp [List.takeWhile_cons, hc]
  have hterm : cstrLen [ c ] < ADDR_MAXLEN := by
    unfold cstrLen
    rw [htw]
    simp [ADDR_MAXLEN]
  have hsa : sAddr [ c ] = [ c ] := by
    unfold sAddr
    rw [htw]
    exact List.take_of_length_le (by simp [ADDR_MAXLEN])
  have hne : sAddr [ c ] ≠ [] := by
    rw [hsa]
    simp
  have hcnt : ¬(([ c ] : List Char).length = 0 ∨ ADDR_MAXLEN < ([ c ] : List Char).length) := by
    simp [ADDR_MAXLEN]
  have hparse : kstrtoull (sAddr [ c ]).dropLast = Except.error (-EINVAL) := by
    rw [hsa]
    have hdl : ([ c ] : List Char).dropLast = [] := rfl
    rw [hdl]
    decide
  exact ⟨pa2kva_store_err po cached [ c ] _ hterm hne hcnt hparse,
    kva2pa_store_err po hm cached [ c ] _ hterm hne hcnt hparse⟩

/-- C10 witness: the amended theorem at the one-byte input `"5"`. -/
theorem c10_witness :
    addrxlate_pa2kva_store 0x1000 ⟨0, false⟩ false [ '5' ]
      = some ⟨-EINVAL, ⟨0, false⟩⟩ :=
  (c10_one_byte_store_parse_error 0x1000 0x3000 0 '5' (by decide)).1
